import Mathlib

/-!
Verification development for the fuel-table repository (`src/components/`
`DataUploader.tsx` and `ChartPage.tsx`): a shallow embedding of the
calibration-table parser, the raw-CSV parser, the divisor-rescaling state
machine, the piecewise-linear sensor-code-to-liters interpolation, and the
statistics panel, together with theorems settling the specified properties.

JavaScript `number` values are modelled as `Option ℚ` where `none` plays the
role of `NaN`; once a pipeline provably cannot produce `NaN` (the ChartPage
computations receive parser output with numeric fields) plain `ℚ` is used.
-/

namespace Table

/-- A JavaScript number that may be `NaN`: `none` models `NaN`, `some q` a
finite numeric value (machine floats are modelled as exact rationals). -/
abbrev JsNumber := Option ℚ

/-- Numeric value of a list of decimal digit characters (most significant
first), as accumulated by the host's decimal parsing. -/
def digitsVal (cs : List Char) : ℕ :=
  cs.foldl (fun acc c => 10 * acc + (c.toNat - 48)) 0

/-- Decimal-digit prefix of a character list as a natural number; `none` when
there is no leading digit (the `NaN` case of `parseInt`). -/
def parseNatPrefix (cs : List Char) : Option ℕ :=
  let ds := cs.takeWhile Char.isDigit
  if ds.isEmpty then none else some (digitsVal ds)

/-- JavaScript `parseInt(s)` (radix 10): skip leading whitespace, optional
sign, then the longest decimal-digit prefix; `none` models `NaN` (no digits).
Hexadecimal `0x` prefixes do not occur in the modelled inputs. -/
def jsParseInt (s : String) : Option ℤ :=
  match s.data.dropWhile Char.isWhitespace with
  | '-' :: rest => (parseNatPrefix rest).map (fun n => -(n : ℤ))
  | '+' :: rest => (parseNatPrefix rest).map (fun n => (n : ℤ))
  | cs => (parseNatPrefix cs).map (fun n => (n : ℤ))

/-- Unsigned part of JavaScript `parseFloat`: the longest prefix of the form
`digits` / `digits.digits` / `.digits`; `none` models `NaN`. Exponent suffixes
and the `Infinity` literal do not occur in the modelled inputs. -/
def parseFracPrefix (cs : List Char) : Option ℚ :=
  let intPart := cs.takeWhile Char.isDigit
  match cs.dropWhile Char.isDigit with
  | '.' :: rest =>
    let fracPart := rest.takeWhile Char.isDigit
    if intPart.isEmpty ∧ fracPart.isEmpty then none
    else some ((digitsVal intPart : ℚ) +
      (digitsVal fracPart : ℚ) / (10 : ℚ) ^ fracPart.length)
  | _ => if intPart.isEmpty then none else some (digitsVal intPart : ℚ)

/-- JavaScript `parseFloat(s)`: skip leading whitespace, optional sign, then
the longest decimal-literal prefix; `none` models `NaN`. -/
def jsParseFloat (s : String) : Option ℚ :=
  match s.data.dropWhile Char.isWhitespace with
  | '-' :: rest => (parseFracPrefix rest).map (fun q => -q)
  | '+' :: rest => parseFracPrefix rest
  | cs => parseFracPrefix cs

/-- Truthiness of a JavaScript number: `NaN` and `0` are falsy. -/
def jsTruthyNum (a : JsNumber) : Bool :=
  match a with
  | none => false
  | some v => decide (v ≠ 0)

/-- JavaScript `a || b` on numbers: `b` when `a` is falsy (`NaN` or `0`). -/
def jsOrNum (a b : JsNumber) : JsNumber :=
  if jsTruthyNum a then a else b

/-- JavaScript `isNaN` on a number. -/
def jsIsNaN (a : JsNumber) : Bool := a.isNone

/-- Substring test, modelling JavaScript `String.prototype.includes`. -/
def strContains (s pat : String) : Bool := decide (pat.data <:+: s.data)

/-- Splitting a character list at every occurrence of a separator character;
the list of fragments is never empty (an empty input yields `[[]]`, matching
JavaScript `"".split(sep) = [""]`). -/
def splitCharList (sep : Char) : List Char → List (List Char)
  | [] => [[]]
  | c :: cs =>
    match splitCharList sep cs, decide (c = sep) with
    | r, true => [] :: r
    | [], false => [[c]]
    | g :: gs, false => (c :: g) :: gs

/-- JavaScript `s.split(sep)` for a one-character separator. -/
def jsSplit (s : String) (sep : Char) : List String :=
  (splitCharList sep s.data).map String.mk

/-- JavaScript `s.trim()`: strip leading and trailing whitespace. -/
def jsTrim (s : String) : String :=
  String.mk
    (((s.data.dropWhile Char.isWhitespace).reverse.dropWhile
      Char.isWhitespace).reverse)

/-- JavaScript `s.toLowerCase()` restricted to the modelled inputs (ASCII
letters; the Cyrillic keywords appear already lowercased). -/
def jsToLower (s : String) : String := String.mk (s.data.map Char.toLower)

/-! The calibration-XML side of `DataUploader.tsx`. -/

/-- One `<value>` element among the `sensor value` query results: the `code`
attribute (`getAttribute` returns `null` when absent, modelled as `none`) and
the element's text content. -/
structure XmlValueElement where
  code : Option String
  textContent : String
  deriving DecidableEq

/-- A calibration XML document as observed by `parseCalibrationXML` after DOM
querying: the text of the `calibrationDate` element (empty string when the
element is absent, mirroring lines 47-48) and the `sensor value` elements in
document order. -/
structure CalibrationDoc where
  calibrationDate : String
  values : List XmlValueElement
  deriving DecidableEq

/-- A point pushed by the calibration parser (`DataPoint` in
`DataUploader.tsx`): `x` and `y` are JS numbers, `NaN` when the `code`
attribute or the text body fails `parseInt`. -/
structure CalPoint where
  x : JsNumber
  y : JsNumber
  name : String
  deriving DecidableEq

/-- The `valueElements.forEach` loop of `parseCalibrationXML`
(`DataUploader.tsx` lines 54-68), before the final sort: for every element
whose `code` attribute and text content are both truthy strings, push one
point with `x = parseInt(code)`,
`y = parseInt(textContent) / volumeDivider` and
`name = "Калибровка " ++ (index + 1)`, where `index` is the 0-based position
among all queried elements (document order, skipped elements included). -/
def parseCalPoints (doc : CalibrationDoc) (volumeDivider : ℚ) : List CalPoint :=
  doc.values.enum.filterMap fun ie =>
    match ie.2.code with
    | none => none
    | some code =>
      if code ≠ "" ∧ ie.2.textContent ≠ "" then
        some { x := (jsParseInt code).map (fun n => (n : ℚ))
             , y := (jsParseInt ie.2.textContent).map (fun n => (n : ℚ) / volumeDivider)
             , name := "Калибровка " ++ toString (ie.1 + 1) }
      else none

/-- The comparator `(a, b) => a.x - b.x` of the final `calibrationData.sort`
(`DataUploader.tsx` line 71), as a boolean "keep this order" relation. When a
code is `NaN` the comparator returns `NaN`, which ECMAScript treats as `+0`
(elements compare equal, order implementation-defined); we model a `NaN` code
as comparing like `0` via `Option.getD`. -/
def calPointLe (a b : CalPoint) : Bool :=
  decide (a.x.getD 0 - b.x.getD 0 ≤ 0)

/-- The function `parseCalibrationXML` (`DataUploader.tsx` lines 42-74): the
element traversal above followed by a stable ascending sort on `x`
(`Array.prototype.sort` is stable per ECMAScript), paired with the
calibration date. -/
def parseCalibrationXML (doc : CalibrationDoc) (volumeDivider : ℚ) :
    List CalPoint × String :=
  ((parseCalPoints doc volumeDivider).mergeSort calPointLe, doc.calibrationDate)

/-- The `DataUploader` component state involved in divisor changes: the
`volumeDivider` React state (initially `1`) and `lastXmlData`, the raw text of
the last successfully uploaded calibration XML (initially `''`, modelled as
`none`; stored already parsed since our embedding works on the
post-DOM document). -/
structure UploaderState where
  volumeDivider : ℚ
  lastXmlData : Option CalibrationDoc

/-- The handler `handleDividerChange` (`DataUploader.tsx` lines 24-39) as a
state transition returning the new state and the
`onCalibrationDataChange (data, calibrationDate, newDivider)` payload (when
`lastXmlData` is truthy). React state is a per-render snapshot:
`setVolumeDivider(newDivider)` only takes effect at the next render, so the
`parseCalibrationXML(lastXmlData)` call inside the same handler still closes
over the previous `volumeDivider`. The emitted data is therefore computed
with `s.volumeDivider`, while `newDivider` is what gets reported to the
caller (and in the success status message). -/
def handleDividerChange (s : UploaderState) (newDivider : ℚ) :
    UploaderState × Option (List CalPoint × String × ℚ) :=
  match s.lastXmlData with
  | none => ({ s with volumeDivider := newDivider }, none)
  | some xml =>
    ({ s with volumeDivider := newDivider },
     some ((parseCalibrationXML xml s.volumeDivider).1,
           (parseCalibrationXML xml s.volumeDivider).2,
           newDivider))

/-! The raw-CSV side of `DataUploader.tsx`. -/

/-- A point pushed by the raw-data parser: `x` is the 0-based index within the
data lines, `y` the sensor code after `parseFloat(parts[1]) || 0`, and `name`
the date/time field. -/
structure RawPoint where
  x : ℕ
  y : JsNumber
  name : String
  deriving DecidableEq

/-- Field cleanup `v.trim().replace(/"/g, '')` applied to every
comma-separated part (`DataUploader.tsx` line 92): trim, then delete every
double-quote character. -/
def cleanField (v : String) : String :=
  String.mk ((jsTrim v).data.filter (fun c => c ≠ '\"'))

/-- Header detection (`DataUploader.tsx` lines 81-87): the first line is a
header iff it contains a comma and its lowercased text contains one of the
four date/time keywords. (`String.toLower` lowercases ASCII; the modelled
inputs carry the keywords already lowercased, as JavaScript `toLowerCase`
would produce.) -/
def rawHasHeader (firstLine : String) : Bool :=
  strContains firstLine "," &&
    (strContains (jsToLower firstLine) "time" ||
     strContains (jsToLower firstLine) "date" ||
     strContains (jsToLower firstLine) "время" ||
     strContains (jsToLower firstLine) "дата")

/-- The body of the `dataLines.map` callback (`DataUploader.tsx` lines
91-105): split on commas, clean each field, throw (`none`) when fewer than two
fields remain, otherwise build the point with
`y = parseFloat(parts[1]) || 0`. -/
def parseRawRow (index : ℕ) (line : String) : Option RawPoint :=
  let parts := (jsSplit line ',').map cleanField
  if parts.length < 2 then none
  else some { x := index
            , y := jsOrNum (jsParseFloat (parts.getD 1 "")) (some 0)
            , name := parts.getD 0 "" }

/-- The function `parseRawDataCSV` (`DataUploader.tsx` lines 77-107): trim,
split into lines, optionally drop a detected header, map every remaining line
through `parseRawRow` (a malformed line aborts the whole parse, modelled by
`Option`), and finally keep only points whose `y` is not `NaN`. -/
def parseRawDataCSV (csvText : String) : Option (List RawPoint) :=
  let lines := jsSplit (jsTrim csvText) '\n'
  let dataLines := if rawHasHeader (lines.headD "") then lines.drop 1 else lines
  (dataLines.enum.mapM fun il => parseRawRow il.1 il.2).map
    (fun points => points.filter (fun p => !(jsIsNaN p.y)))

/-- Proof-layer companion of `parseCalPoints`: the integer-level data of every
emitted entry (parsed code, parsed body, label), before volumes enter `ℚ`.
Used only to evaluate `parseCalPoints` on concrete documents, via
`parseCalPoints_eq_map`. -/
def calEntryTriples (doc : CalibrationDoc) : List (Option ℤ × Option ℤ × String) :=
  doc.values.enum.filterMap fun ie =>
    match ie.2.code with
    | none => none
    | some code =>
      if code ≠ "" ∧ ie.2.textContent ≠ "" then
        some (jsParseInt code, jsParseInt ie.2.textContent,
              "Калибровка " ++ toString (ie.1 + 1))
      else none

/-- Rational-valued point determined by an integer-level entry triple and the
divisor. -/
def triplePoint (volumeDivider : ℚ) (t : Option ℤ × Option ℤ × String) : CalPoint :=
  { x := t.1.map (fun n => (n : ℚ))
  , y := t.2.1.map (fun n => (n : ℚ) / volumeDivider)
  , name := t.2.2 }

theorem parseCalPoints_eq_map (doc : CalibrationDoc) (volumeDivider : ℚ) :
    parseCalPoints doc volumeDivider =
      (calEntryTriples doc).map (triplePoint volumeDivider) := by
  rw [parseCalPoints, calEntryTriples, List.map_filterMap]
  refine List.filterMap_congr (fun ie _ => ?_)
  rcases ie.2.code with _ | code
  · rfl
  · by_cases h : code ≠ "" ∧ ie.2.textContent ≠ "" <;> simp [h, triplePoint]

/-! The chart page (`ChartPage.tsx`). Its computations receive parser output
whose numeric fields are numeric (the uploader rejects empty parses), so this
layer works with plain `ℚ`. -/

/-- The `CalibrationData`/`RawData` record of `ChartPage.tsx`. -/
structure DataPoint where
  x : ℚ
  y : ℚ
  name : String
  deriving DecidableEq

/-- The comparator `(a, b) => a.x - b.x` used by `convertSensorCodeToLiters`
(`ChartPage.tsx` line 63), as a boolean "keep this order" relation. -/
def dpLe (a b : DataPoint) : Bool := decide (a.x - b.x ≤ 0)

/-- The search loop of `convertSensorCodeToLiters` (`ChartPage.tsx` lines
79-85): scan consecutive pairs of the sorted array and return the first pair
`(lo, hi)` with `lo.x ≤ code ≤ hi.x`; `none` when the loop never breaks (then
`lowerPoint`/`upperPoint` keep their initial values `sorted[0]` and
`sorted[length-1]`). -/
def findPair (c : ℚ) : List DataPoint → Option (DataPoint × DataPoint)
  | a :: b :: rest =>
    if a.x ≤ c ∧ c ≤ b.x then some (a, b) else findPair c (b :: rest)
  | _ => none

/-- The body of `convertSensorCodeToLiters` after the empty-curve check and
the sort (`ChartPage.tsx` lines 62-89), applied to the sorted array: clamp
below the first point, clamp above the last point, otherwise linear
interpolation over the pair found by the scan. The `[]` case is unreachable
from `convertSensorCodeToLiters` (sorting a non-empty array is non-empty) and
returns the input code to totalize the match. -/
def interpolateSorted (sorted : List DataPoint) (sensorCode : ℚ) : ℚ :=
  match sorted with
  | [] => sensorCode
  | first :: rest =>
    let last := rest.getLastD first
    if sensorCode ≤ first.x then first.y
    else if last.x ≤ sensorCode then last.y
    else
      let pair := (findPair sensorCode (first :: rest)).getD (first, last)
      pair.1.y + (sensorCode - pair.1.x) / (pair.2.x - pair.1.x) * (pair.2.y - pair.1.y)

/-- The function `convertSensorCodeToLiters` (`ChartPage.tsx` lines 59-90):
with an empty calibration table the sensor code passes through unchanged;
otherwise a sorted copy (`[...calibrationData].sort((a, b) => a.x - b.x)`,
stable) is interpolated as above. -/
def convertSensorCodeToLiters (calibrationData : List DataPoint) (sensorCode : ℚ) : ℚ :=
  if calibrationData.length = 0 then sensorCode
  else interpolateSorted (calibrationData.mergeSort dpLe) sensorCode

/-- Days since 1970-01-01 of the civil date `(y, m, d)` (month `1..12`, `d`
may carry any integer offset), proleptic Gregorian — the standard
civil-from-days computation used to model ECMAScript `MakeDay`. -/
def daysFromCivil (y m d : ℤ) : ℤ :=
  let yShift := if m ≤ 2 then y - 1 else y
  let era := yShift.fdiv 400
  let yoe := yShift - era * 400
  let doy := (153 * ((m + 9).emod 12) + 2).fdiv 5 + d - 1
  let doe := yoe * 365 + yoe.fdiv 4 - yoe.fdiv 100 + doy
  era * 146097 + doe - 719468

/-- Milliseconds since the epoch of
`new Date(year, month0, day, hours, minutes, seconds).getTime()` for numeric
arguments (`month0` is 0-based as passed by the source): the `0 ≤ year ≤ 99`
window maps to `1900 + year`, out-of-range months roll over into adjacent
years, and the host's local-time offset (a fixed unspecified reference frame,
never observed by the claims) is taken as zero. -/
def jsDateMillis (year month0 day hours minutes seconds : ℤ) : ℤ :=
  let y := if 0 ≤ year ∧ year ≤ 99 then year + 1900 else year
  let ym := y + month0.fdiv 12
  let mn := month0.emod 12
  let days := daysFromCivil ym (mn + 1) 1 + (day - 1)
  (((days * 24 + hours) * 60 + minutes) * 60 + seconds) * 1000

/-- The `getTime()` result of a `new Date(...)` built from six `parseInt`
results: if any field is `NaN` the date is invalid and `getTime()` is `NaN`
(`none`), otherwise the milliseconds above. -/
def jsMakeTime (day month0 year hours minutes seconds : Option ℤ) : Option ℤ :=
  match day, month0, year, hours, minutes, seconds with
  | some d, some mo, some y, some h, some mi, some s =>
    some (jsDateMillis y mo d h mi s)
  | _, _, _, _, _, _ => none

/-- The function `parseDateTime` (`ChartPage.tsx` lines 93-119): split the
trimmed text on one space into a date and a time part, the date part on dots
and the time part on colons; a wrong field count throws (outer `none`),
otherwise the six fields go through `parseInt` (month decremented) into the
`Date` constructor. The inner `Option ℤ` is the `getTime()` value, `none`
modelling `NaN` (well-shaped but non-numeric fields — such a sample is kept
by the callers). -/
def parseDateTime (dateTimeStr : String) : Option (Option ℤ) :=
  let parts := jsSplit (jsTrim dateTimeStr) ' '
  if parts.length ≠ 2 then none
  else
    let dateParts := jsSplit (parts.getD 0 "") '.'
    let timeParts := jsSplit (parts.getD 1 "") ':'
    if dateParts.length ≠ 3 ∨ timeParts.length ≠ 3 then none
    else
      jsMakeTime
        (jsParseInt (dateParts.getD 0 ""))
        ((jsParseInt (dateParts.getD 1 "")).map (fun n => n - 1))
        (jsParseInt (dateParts.getD 2 ""))
        (jsParseInt (timeParts.getD 0 ""))
        (jsParseInt (timeParts.getD 1 ""))
        (jsParseInt (timeParts.getD 2 "")) |> some

/-- An element of `rawDataWithTimestamp`: timestamp (`none` models a `NaN`
`getTime()`), converted volume, and the original date/time text. -/
structure TimestampedPoint where
  x : Option ℤ
  y : ℚ
  originalName : String
  deriving DecidableEq

/-- The derived array `rawDataWithTimestamp` (`ChartPage.tsx` lines 132-147):
every raw sample whose `name` parses (no throw) contributes a point with the
parsed timestamp and the interpolated volume; samples whose `name` throws in
`parseDateTime` are mapped to `null` and filtered out. -/
def rawDataWithTimestamp (calibrationData rawData : List DataPoint) :
    List TimestampedPoint :=
  rawData.filterMap fun item =>
    (parseDateTime item.name).map fun t =>
      { x := t
      , y := convertSensorCodeToLiters calibrationData item.y
      , originalName := item.name }

/-! The statistics panel (`ChartPage.tsx` lines 186-262). -/

/-- The mean `calibrationAvg` (`ChartPage.tsx` lines 198-200): average of the
calibration volumes, `0` for an empty table. -/
def calibrationAvg (calibrationData : List DataPoint) : ℚ :=
  if 0 < calibrationData.length then
    (calibrationData.map (fun d => d.y)).sum / calibrationData.length
  else 0

/-- The mean `rawAvgInLiters` (`ChartPage.tsx` lines 202-204): average
converted volume over the timestamped samples, `0` when there are none. -/
def rawAvgInLiters (calibrationData rawData : List DataPoint) : ℚ :=
  let ts := rawDataWithTimestamp calibrationData rawData
  if 0 < ts.length then (ts.map (fun d => d.y)).sum / ts.length else 0

/-- The helper `findClosestCalibration` (`ChartPage.tsx` lines 207-212): with
an empty calibration table it returns the synthetic `{x: 0, y: 0}` point;
otherwise `reduce` scans the table in stored order keeping the point whose
code is strictly closer to the sample's code, so the first-found point wins
ties. -/
def findClosestCalibration (calibrationData : List DataPoint) (sensorCode : ℚ) :
    DataPoint :=
  match calibrationData with
  | [] => { x := 0, y := 0, name := "" }
  | c :: rest =>
    rest.foldl
      (fun closest cal =>
        if |cal.x - sensorCode| < |closest.x - sensorCode| then cal else closest)
      c

/-- One element of `rawWithCalibration`: the raw code, its converted volume,
the nearest calibration volume, and the absolute deviation. -/
structure DeviationRecord where
  raw : ℚ
  rawInLiters : ℚ
  calibration : ℚ
  deviation : ℚ
  deriving DecidableEq

/-- The array `rawWithCalibration` (`ChartPage.tsx` lines 214-223): every raw
sample (date-parse success not required) paired with its nearest calibration
point and the absolute deviation of its converted volume from that point's
volume. -/
def rawWithCalibration (calibrationData rawData : List DataPoint) :
    List DeviationRecord :=
  rawData.map fun raw =>
    let closest := findClosestCalibration calibrationData raw.y
    let rawInLiters := convertSensorCodeToLiters calibrationData raw.y
    { raw := raw.y
    , rawInLiters := rawInLiters
    , calibration := closest.y
    , deviation := |rawInLiters - closest.y| }

/-- The mean `avgDeviation` (`ChartPage.tsx` lines 225-227). -/
def avgDeviation (calibrationData rawData : List DataPoint) : ℚ :=
  let rwc := rawWithCalibration calibrationData rawData
  if 0 < rwc.length then (rwc.map (fun r => r.deviation)).sum / rwc.length else 0

/-- The maximum `maxDeviation` (`ChartPage.tsx` lines 229-231):
`Math.max(...deviations)` over a non-empty list, `0` otherwise. -/
def maxDeviation (calibrationData rawData : List DataPoint) : ℚ :=
  match (rawWithCalibration calibrationData rawData).map (fun r => r.deviation) with
  | [] => 0
  | d :: ds => ds.foldl max d

/-- The displayed `Количество измерений` counter (`ChartPage.tsx` line 254):
the length of `rawData`, not of the timestamped view. -/
def sampleCount (rawData : List DataPoint) : ℕ := rawData.length

/-! Helper lemmas. -/

theorem mergeSort_dpLe_of_sorted {l : List DataPoint}
    (hs : List.Pairwise (fun a b => a.x ≤ b.x) l) : l.mergeSort dpLe = l :=
  List.mergeSort_of_sorted
    (hs.imp (fun h => by simpa [dpLe, sub_nonpos] using h))

theorem convert_eq_interpolateSorted {l : List DataPoint}
    (hs : List.Pairwise (fun a b => a.x ≤ b.x) l) (c : ℚ) :
    convertSensorCodeToLiters l c = interpolateSorted l c := by
  cases l with
  | nil => rfl
  | cons first rest =>
    rw [convertSensorCodeToLiters, if_neg (by simp), mergeSort_dpLe_of_sorted hs]

theorem findPair_some_spec (c : ℚ) :
    ∀ (a : DataPoint) (l : List DataPoint), a.x < c →
      ∀ lo hi, findPair c (a :: l) = some (lo, hi) → lo.x < c ∧ c ≤ hi.x := by
  intro a l
  induction l generalizing a with
  | nil => intro _ lo hi h; simp [findPair] at h
  | cons b rest ih =>
    intro ha lo hi h
    simp only [findPair] at h
    split at h
    · rename_i hcond
      simp only [Option.some.injEq, Prod.mk.injEq] at h
      obtain ⟨rfl, rfl⟩ := h
      exact ⟨ha, hcond.2⟩
    · rename_i hcond
      push_neg at hcond
      exact ih b (hcond ha.le) lo hi h

theorem findPair_interp_mem :
    ∀ (a : DataPoint) (l : List DataPoint),
      List.Pairwise (fun p q => p.x < q.x) (a :: l) →
      ∀ p ∈ a :: l, a.x < p.x →
        ∃ lo hi, findPair p.x (a :: l) = some (lo, hi) ∧
          lo.y + (p.x - lo.x) / (hi.x - lo.x) * (hi.y - lo.y) = p.y := by
  intro a l
  induction l generalizing a with
  | nil =>
    intro _ p hp ha
    rw [List.mem_singleton] at hp
    subst hp
    exact absurd ha (lt_irrefl _)
  | cons b rest ih =>
    intro hpw p hp hap
    have hpbr : p ∈ b :: rest := by
      rcases List.mem_cons.mp hp with h | h
      · exact absurd (h ▸ hap) (lt_irrefl _)
      · exact h
    by_cases hc : p.x ≤ b.x
    · have hpb : p = b := by
        rcases List.mem_cons.mp hpbr with h | h
        · exact h
        · have hbp : b.x < p.x :=
            (List.pairwise_cons.mp (List.pairwise_cons.mp hpw).2).1 p h
          exact absurd (lt_of_lt_of_le hbp hc) (lt_irrefl _)
      refine ⟨a, b, ?_, ?_⟩
      · simp only [findPair]
        rw [if_pos ⟨hap.le, hc⟩]
      · subst hpb
        have hne : p.x - a.x ≠ 0 := sub_ne_zero.mpr (ne_of_gt hap)
        rw [div_self hne, one_mul]
        ring
    · have hbx : b.x < p.x := not_le.mp hc
      obtain ⟨lo, hi, hfp, hval⟩ :=
        ih b (List.pairwise_cons.mp hpw).2 p hpbr hbx
      refine ⟨lo, hi, ?_, hval⟩
      simp only [findPair]
      rw [if_neg (fun h => hc h.2)]
      exact hfp

theorem lt_getLastD_of_mem_of_ne :
    ∀ (a : DataPoint) (l : List DataPoint),
      List.Pairwise (fun p q => p.x < q.x) (a :: l) →
      ∀ p ∈ a :: l, p ≠ l.getLastD a → p.x < (l.getLastD a).x := by
  intro a l
  induction l generalizing a with
  | nil =>
    intro _ p hp hne
    rw [List.mem_singleton] at hp
    exact absurd hp hne
  | cons b rest ih =>
    intro hpw p hp hne
    rw [List.getLastD_cons] at hne ⊢
    rcases List.mem_cons.mp hp with h | h
    · subst h
      exact (List.pairwise_cons.mp hpw).1 _ (List.getLastD_mem_cons rest b)
    · exact ih b (List.pairwise_cons.mp hpw).2 p h hne

theorem calPointLe_trans (a b c : CalPoint) (h1 : calPointLe a b)
    (h2 : calPointLe b c) : calPointLe a c := by
  simp only [calPointLe, decide_eq_true_eq, sub_nonpos] at h1 h2 ⊢
  exact le_trans h1 h2

theorem calPointLe_total (a b : CalPoint) : calPointLe a b || calPointLe b a := by
  simp only [calPointLe, Bool.or_eq_true, decide_eq_true_eq, sub_nonpos]
  exact le_total _ _

/-! Claim theorems. -/

/-- C2 (amended): a data row whose second field fails numeric parsing is not
excluded: `parseFloat(parts[1]) || 0` turns the failed parse into `0`, so the
row is emitted with sensor code `0` (and the trailing `isNaN` filter never
removes it); in particular a raw document with one malformed numeric row
among three rows parses to exactly 3 samples. -/
theorem c2_malformed_row_kept_with_code_zero (index : ℕ) (line : String)
    (h2 : ¬ ((jsSplit line ',').map cleanField).length < 2)
    (hbad : jsParseFloat (((jsSplit line ',').map cleanField).getD 1 "") = none) :
    parseRawRow index line =
        some ⟨index, some 0, ((jsSplit line ',').map cleanField).getD 0 ""⟩ ∧
      (parseRawDataCSV ("28.06.2025 07:03:29,2535\n" ++
          "28.06.2025 07:05:29,abc\n28.06.2025 07:07:29,2535")).map
        List.length = some 3 := by
  constructor
  · simp only [parseRawRow]
    rw [if_neg h2, hbad]
    rfl
  · decide

/-- C2 witness: the malformed middle row of the three-row document is kept
with sensor code `0`. -/
theorem c2_malformed_row_witness :
    parseRawRow 1 "28.06.2025 07:05:29,abc" =
        some ⟨1, some 0, "28.06.2025 07:05:29"⟩ ∧
      (parseRawDataCSV ("28.06.2025 07:03:29,2535\n" ++
          "28.06.2025 07:05:29,abc\n28.06.2025 07:07:29,2535")).map
        List.length = some 3 :=
  c2_malformed_row_kept_with_code_zero 1 "28.06.2025 07:05:29,abc"
    (by decide) (by decide)

/-- C2 counterexample: the three-row raw document with one malformed numeric
row parses to 3 samples, not to the 2 samples the claim states. -/
theorem c2_not_dropped_counterexample :
    (parseRawDataCSV ("28.06.2025 07:03:29,2535\n" ++
        "28.06.2025 07:05:29,abc\n28.06.2025 07:07:29,2535")).map
      List.length ≠ some 2 := by decide

/-- C6: for every calibration document whose emitted codes are all numeric (a
valid document), the points returned by `parseCalibrationXML` are
non-decreasing in code (for such points `Option.getD 0` reads off the code),
and the sort is stable: for any code, the points carrying it appear in the
same relative order as in the pre-sort document traversal. -/
theorem c6_parse_sorted_and_stable (doc : CalibrationDoc) (d : ℚ)
    (hvalid : ∀ p ∈ parseCalPoints doc d, p.x.isSome) :
    List.Pairwise (fun p q => p.x.getD 0 ≤ q.x.getD 0)
        (parseCalibrationXML doc d).1 ∧
      ∀ c : ℚ,
        (parseCalibrationXML doc d).1.filter (fun p => decide (p.x = some c)) =
          (parseCalPoints doc d).filter (fun p => decide (p.x = some c)) := by
  constructor
  · have hS := List.sorted_mergeSort
      calPointLe_trans calPointLe_total (parseCalPoints doc d)
    exact hS.imp (fun h => by
      simpa [calPointLe, sub_nonpos] using h)
  · intro c
    have hApw : ((parseCalPoints doc d).filter
        (fun p => decide (p.x = some c))).Pairwise
          (fun a b => calPointLe a b) := by
      apply List.pairwise_of_forall_mem_list
      intro a ha b hb
      have hax : a.x = some c := by
        simpa using (List.mem_filter.mp ha).2
      have hbx : b.x = some c := by
        simpa using (List.mem_filter.mp hb).2
      simp [calPointLe, hax, hbx]
    have hsub : List.Sublist
        ((parseCalPoints doc d).filter (fun p => decide (p.x = some c)))
        ((parseCalPoints doc d).mergeSort calPointLe) :=
      List.sublist_mergeSort calPointLe_trans calPointLe_total hApw
        (List.filter_sublist _)
    have hsub2 : List.Sublist
        ((parseCalPoints doc d).filter (fun p => decide (p.x = some c)))
        (((parseCalPoints doc d).mergeSort calPointLe).filter
          (fun p => decide (p.x = some c))) := by
      have hf := hsub.filter (fun p => decide (p.x = some c))
      rwa [List.filter_filter, List.filter_congr
        (fun a _ => Bool.and_self _)] at hf
    have hperm : List.Perm
        (((parseCalPoints doc d).mergeSort calPointLe).filter
          (fun p => decide (p.x = some c)))
        ((parseCalPoints doc d).filter (fun p => decide (p.x = some c))) :=
      (List.mergeSort_perm (parseCalPoints doc d) calPointLe).filter _
    exact (hsub2.eq_of_length hperm.length_eq.symm).symm

/-- C6 witness: the sorting-and-stability theorem applied to a concrete
document with an unsorted duplicate code; hypotheses discharged by
evaluation. -/
theorem c6_parse_sorted_and_stable_witness :
    List.Pairwise (fun p q => p.x.getD 0 ≤ q.x.getD 0)
        (parseCalibrationXML
          ⟨"2024", [⟨some "289", "100"⟩, ⟨some "0", "0"⟩, ⟨some "289", "50"⟩]⟩ 1).1 ∧
      (parseCalibrationXML
          ⟨"2024", [⟨some "289", "100"⟩, ⟨some "0", "0"⟩, ⟨some "289", "50"⟩]⟩ 1).1.filter
          (fun p => decide (p.x = some 289)) =
        (parseCalPoints
          ⟨"2024", [⟨some "289", "100"⟩, ⟨some "0", "0"⟩, ⟨some "289", "50"⟩]⟩ 1).filter
          (fun p => decide (p.x = some 289)) :=
  ⟨(c6_parse_sorted_and_stable
      ⟨"2024", [⟨some "289", "100"⟩, ⟨some "0", "0"⟩, ⟨some "289", "50"⟩]⟩ 1
      (by decide)).1,
   (c6_parse_sorted_and_stable
      ⟨"2024", [⟨some "289", "100"⟩, ⟨some "0", "0"⟩, ⟨some "289", "50"⟩]⟩ 1
      (by decide)).2 289⟩

/-- C5: interpolation over an empty calibration curve returns the input
sensor code unchanged, a pass-through fallback rather than an error. -/
theorem c5_empty_curve_passthrough (x : ℚ) :
    convertSensorCodeToLiters [] x = x := rfl

/-- C4 (amended): for a non-empty sorted calibration curve,
`convertSensorCodeToLiters` returns the first point's volume whenever the
code is at most the minimum code, and the last point's volume whenever the
code is at least the maximum code *and* strictly above the minimum code (the
minimum clamp is checked first, so when all codes are equal the first point's
volume wins). -/
theorem c4_clamp (cal : List DataPoint)
    (hs : List.Pairwise (fun a b => a.x ≤ b.x) cal) (hne : cal ≠ [])
    (c : ℚ) :
    (c ≤ (cal.head hne).x →
      convertSensorCodeToLiters cal c = (cal.head hne).y) ∧
    ((cal.head hne).x < c → (cal.getLast hne).x ≤ c →
      convertSensorCodeToLiters cal c = (cal.getLast hne).y) := by
  cases cal with
  | nil => exact absurd rfl hne
  | cons first rest =>
    rw [convert_eq_interpolateSorted hs]
    constructor
    · intro hle
      rw [List.head_cons] at hle ⊢
      simp only [interpolateSorted]
      rw [if_pos hle]
    · intro hlt hge
      rw [List.head_cons] at hlt
      rw [List.getLast_eq_getLastD] at hge ⊢
      simp only [interpolateSorted]
      rw [if_neg (not_le.mpr hlt), if_pos hge]

/-- C1 (code bug): on the state holding the uploaded single-point document
`code="289"`, body `"100"` and divider `1`, changing the divider to `10`
emits volume `100` — the parse still divides by the stale previous divider
`1` while reporting divider `10` — and a following change to `2` emits
volume `10` (divided by the stale `10`), where the claim (and the handler's
own success message) require `100 / 10 = 10` and `100 / 2 = 50`
respectively. -/
theorem c1_divider_change_uses_stale_divisor :
    (handleDividerChange ⟨1, some ⟨"", [⟨some "289", "100"⟩]⟩⟩ 10).2 =
        some ([⟨some 289, some 100, "Калибровка 1"⟩], "", 10) ∧
      (handleDividerChange
          (handleDividerChange ⟨1, some ⟨"", [⟨some "289", "100"⟩]⟩⟩ 10).1 2).2 =
        some ([⟨some 289, some 10, "Калибровка 1"⟩], "", 2) := by
  have hT : calEntryTriples ⟨"", [⟨some "289", "100"⟩]⟩ =
      [(some 289, some 100, "Калибровка 1")] := by decide
  have hx1 : parseCalibrationXML ⟨"", [⟨some "289", "100"⟩]⟩ 1 =
      ([⟨some 289, some 100, "Калибровка 1"⟩], "") := by
    rw [parseCalibrationXML, parseCalPoints_eq_map, hT]
    norm_num [triplePoint, List.mergeSort_singleton]
  have hx10 : parseCalibrationXML ⟨"", [⟨some "289", "100"⟩]⟩ 10 =
      ([⟨some 289, some 10, "Калибровка 1"⟩], "") := by
    rw [parseCalibrationXML, parseCalPoints_eq_map, hT]
    norm_num [triplePoint, List.mergeSort_singleton]
  constructor
  · simp only [handleDividerChange, hx1]
  · simp only [handleDividerChange, hx10]

/-- C3 counterexample: the entry with code attribute `"7"` and fractional
body `"10.5"`, at divisor 1, is emitted with volume `10` (`parseInt`
truncation), not the `10.5` the claim states. -/
theorem c3_fractional_body_truncated :
    (parseCalibrationXML ⟨"", [⟨some "7", "10.5"⟩]⟩ 1).1 =
        [⟨some 7, some 10, "Калибровка 1"⟩] ∧
      (parseCalibrationXML ⟨"", [⟨some "7", "10.5"⟩]⟩ 1).1 ≠
        [⟨some 7, some (10.5 : ℚ), "Калибровка 1"⟩] := by
  have hT : calEntryTriples ⟨"", [⟨some "7", "10.5"⟩]⟩ =
      [(some 7, some 10, "Калибровка 1")] := by decide
  have h : (parseCalibrationXML ⟨"", [⟨some "7", "10.5"⟩]⟩ 1).1 =
      [⟨some 7, some 10, "Калибровка 1"⟩] := by
    rw [parseCalibrationXML, parseCalPoints_eq_map, hT]
    norm_num [triplePoint, List.mergeSort_singleton]
  refine ⟨h, ?_⟩
  rw [h]
  norm_num [CalPoint.mk.injEq]

/-- C3 (amended): for each entry with a present (truthy) `code` attribute and
non-empty body, the parser emits the point whose volume is
`parseInt(body) / divisor` — `parseInt` keeps only the integer prefix of the
body, so a fractional body is truncated (`"10.5"` at divisor 1 gives `10`,
not `10.5`) and a digitless body gives `NaN`. -/
theorem c3_volume_is_parseInt_of_body (doc : CalibrationDoc) (d : ℚ) (i : ℕ)
    (el : XmlValueElement) (cs : String) (hel : doc.values[i]? = some el)
    (hcode : el.code = some cs) (hcs : cs ≠ "") (hbody : el.textContent ≠ "") :
    (⟨(jsParseInt cs).map (fun n => (n : ℚ)),
      (jsParseInt el.textContent).map (fun n => (n : ℚ) / d),
      "Калибровка " ++ toString (i + 1)⟩ : CalPoint) ∈
      (parseCalibrationXML doc d).1 := by
  rw [parseCalibrationXML]
  rw [List.mem_mergeSort, parseCalPoints]
  apply List.mem_filterMap.mpr
  refine ⟨(i, el), ?_, ?_⟩
  · simp [List.enum, List.mk_mem_enumFrom_iff_le_and_getElem?_sub, hel]
  · simp [hcode, hcs, hbody]

/-- C3 witness: the truncating-volume theorem applied to the concrete entry
with body `"10.5"` at divisor 1, the emitted point evaluated. -/
theorem c3_volume_witness :
    (⟨some 7, some 10, "Калибровка 1"⟩ : CalPoint) ∈
      (parseCalibrationXML ⟨"", [⟨some "7", "10.5"⟩]⟩ 1).1 := by
  have h := c3_volume_is_parseInt_of_body ⟨"", [⟨some "7", "10.5"⟩]⟩ 1 0
    ⟨some "7", "10.5"⟩ "7" rfl rfl (by decide) (by decide)
  have e1 : (jsParseInt "7").map (fun n => (n : ℚ)) = some 7 := by
    rw [show jsParseInt "7" = some 7 from by decide]
    norm_num
  have e2 : (jsParseInt "10.5").map (fun n => (n : ℚ) / 1) = some 10 := by
    rw [show jsParseInt "10.5" = some 10 from by decide]
    norm_num
  have e3 : "Калибровка " ++ toString (0 + 1) = "Калибровка 1" := by decide
  rw [e1, e2, e3] at h
  exact h

/-- C7: a raw sample whose label fails date parsing is excluded from the
timestamped view (hence from the set contributing to `rawAvgInLiters`), but
still counts toward `sampleCount` and still contributes its
nearest-calibration deviation record. -/
theorem c7_date_filter_tolerance (cal pre post : List DataPoint)
    (item : DataPoint) (hbad : parseDateTime item.name = none) :
    rawDataWithTimestamp cal (pre ++ item :: post) =
        rawDataWithTimestamp cal (pre ++ post) ∧
      rawAvgInLiters cal (pre ++ item :: post) =
        rawAvgInLiters cal (pre ++ post) ∧
      sampleCount (pre ++ item :: post) = sampleCount (pre ++ post) + 1 ∧
      rawWithCalibration cal (pre ++ item :: post) =
        rawWithCalibration cal pre ++
          ⟨item.y, convertSensorCodeToLiters cal item.y,
            (findClosestCalibration cal item.y).y,
            |convertSensorCodeToLiters cal item.y -
              (findClosestCalibration cal item.y).y|⟩ ::
          rawWithCalibration cal post := by
  have h1 : rawDataWithTimestamp cal (pre ++ item :: post) =
      rawDataWithTimestamp cal (pre ++ post) := by
    simp [rawDataWithTimestamp, List.filterMap_append, List.filterMap_cons, hbad]
  refine ⟨h1, ?_, ?_, ?_⟩
  · rw [rawAvgInLiters, rawAvgInLiters, h1]
  · simp only [sampleCount, List.length_append, List.length_cons]
    omega
  · simp [rawWithCalibration, List.map_append]

/-- C7 witness: the date-filter theorem applied to the concrete sample
labelled `"not-a-date"` following one well-formed sample, with an empty
calibration curve. -/
theorem c7_date_filter_tolerance_witness :
    rawDataWithTimestamp [] [⟨0, 2535, "28.06.2025 07:03:29"⟩, ⟨1, 7, "not-a-date"⟩] =
        rawDataWithTimestamp [] [⟨0, 2535, "28.06.2025 07:03:29"⟩] ∧
      rawAvgInLiters [] [⟨0, 2535, "28.06.2025 07:03:29"⟩, ⟨1, 7, "not-a-date"⟩] =
        rawAvgInLiters [] [⟨0, 2535, "28.06.2025 07:03:29"⟩] ∧
      sampleCount [⟨0, 2535, "28.06.2025 07:03:29"⟩, ⟨1, 7, "not-a-date"⟩] =
        sampleCount [⟨0, 2535, "28.06.2025 07:03:29"⟩] + 1 ∧
      rawWithCalibration [] [⟨0, 2535, "28.06.2025 07:03:29"⟩, ⟨1, 7, "not-a-date"⟩] =
        rawWithCalibration [] [⟨0, 2535, "28.06.2025 07:03:29"⟩] ++
          ⟨7, convertSensorCodeToLiters [] 7, (findClosestCalibration [] 7).y,
            |convertSensorCodeToLiters [] 7 - (findClosestCalibration [] 7).y|⟩ ::
          rawWithCalibration [] [] :=
  c7_date_filter_tolerance [] [⟨0, 2535, "28.06.2025 07:03:29"⟩] []
    ⟨1, 7, "not-a-date"⟩ (by decide)

theorem foldl_max_mem (a : ℚ) (l : List ℚ) :
    l.foldl max a = a ∨ l.foldl max a ∈ l := by
  induction l generalizing a with
  | nil => left; rfl
  | cons b t ih =>
    simp only [List.foldl_cons]
    rcases ih (max a b) with h | h
    · rcases max_choice a b with hm | hm
      · left; rw [h, hm]
      · right; rw [h, hm]; exact List.mem_cons_self _ _
    · right; exact List.mem_cons_of_mem _ h

theorem le_foldl_max (a : ℚ) (l : List ℚ) :
    a ≤ l.foldl max a ∧ ∀ x ∈ l, x ≤ l.foldl max a := by
  induction l generalizing a with
  | nil => exact ⟨le_refl _, by simp⟩
  | cons b t ih =>
    obtain ⟨h1, h2⟩ := ih (max a b)
    simp only [List.foldl_cons]
    refine ⟨le_trans (le_max_left a b) h1, ?_⟩
    intro x hx
    rcases List.mem_cons.mp hx with rfl | hx'
    · exact le_trans (le_max_right a x) h1
    · exact h2 x hx'

/-- C10: with an empty calibration curve the nearest-point lookup defaults to
the synthetic `(0, 0)` point and interpolation passes codes through, so every
raw sample's deviation record carries `|code|`, and `avgDeviation` and
`maxDeviation` are the mean and the maximum of those absolute codes (not
`0`). -/
theorem c10_empty_curve_statistics (raw : List DataPoint) (hne : raw ≠ []) :
    rawWithCalibration [] raw =
        raw.map (fun i => ⟨i.y, i.y, 0, |i.y|⟩) ∧
      avgDeviation [] raw = (raw.map (fun i => |i.y|)).sum / raw.length ∧
      maxDeviation [] raw ∈ raw.map (fun i => |i.y|) ∧
      ∀ i ∈ raw, |i.y| ≤ maxDeviation [] raw := by
  have hrwc : rawWithCalibration [] raw =
      raw.map (fun i => ⟨i.y, i.y, 0, |i.y|⟩) := by
    simp [rawWithCalibration, findClosestCalibration, convertSensorCodeToLiters]
  obtain ⟨r, rs, rfl⟩ : ∃ r rs, raw = r :: rs := by
    cases raw with
    | nil => exact absurd rfl hne
    | cons r rs => exact ⟨r, rs, rfl⟩
  have hdev : (rawWithCalibration [] (r :: rs)).map (fun x => x.deviation) =
      |r.y| :: rs.map (fun i => |i.y|) := by
    rw [hrwc]
    simp [List.map_map, Function.comp]
  have hmax : maxDeviation [] (r :: rs) = (rs.map (fun i => |i.y|)).foldl max |r.y| := by
    rw [maxDeviation, hdev]
  refine ⟨hrwc, ?_, ?_, ?_⟩
  · rw [avgDeviation]
    simp only [hdev, hrwc]
    rw [if_pos (by simp)]
    simp [List.map_map, Function.comp_def]
  · rw [hmax]
    rcases foldl_max_mem (|r.y|) (rs.map (fun i => |i.y|)) with h | h
    · rw [h]; simp
    · simp only [List.map_cons]
      exact List.mem_cons_of_mem _ h
  · intro i hi
    rw [hmax]
    obtain ⟨h1, h2⟩ := le_foldl_max (|r.y|) (rs.map (fun i => |i.y|))
    rcases List.mem_cons.mp hi with rfl | hi'
    · exact h1
    · exact h2 _ (List.mem_map_of_mem _ hi')

/-- C10 witness: the empty-curve statistics theorem applied to two concrete
raw samples with codes `-3` and `7`. -/
theorem c10_empty_curve_statistics_witness :
    rawWithCalibration [] [⟨0, -3, "a"⟩, ⟨1, 7, "b"⟩] =
        List.map (fun i => ⟨i.y, i.y, 0, |i.y|⟩)
          [(⟨0, -3, "a"⟩ : DataPoint), ⟨1, 7, "b"⟩] ∧
      avgDeviation [] [⟨0, -3, "a"⟩, ⟨1, 7, "b"⟩] =
        (List.map (fun i => |i.y|) [(⟨0, -3, "a"⟩ : DataPoint), ⟨1, 7, "b"⟩]).sum /
          (List.length [(⟨0, -3, "a"⟩ : DataPoint), ⟨1, 7, "b"⟩]) ∧
      maxDeviation [] [⟨0, -3, "a"⟩, ⟨1, 7, "b"⟩] ∈
        List.map (fun i => |i.y|) [(⟨0, -3, "a"⟩ : DataPoint), ⟨1, 7, "b"⟩] ∧
      |(-3 : ℚ)| ≤ maxDeviation [] [⟨0, -3, "a"⟩, ⟨1, 7, "b"⟩] :=
  ⟨(c10_empty_curve_statistics [⟨0, -3, "a"⟩, ⟨1, 7, "b"⟩] (by simp)).1,
   (c10_empty_curve_statistics [⟨0, -3, "a"⟩, ⟨1, 7, "b"⟩] (by simp)).2.1,
   (c10_empty_curve_statistics [⟨0, -3, "a"⟩, ⟨1, 7, "b"⟩] (by simp)).2.2.1,
   (c10_empty_curve_statistics [⟨0, -3, "a"⟩, ⟨1, 7, "b"⟩] (by simp)).2.2.2
     ⟨0, -3, "a"⟩ (by simp)⟩

/-- C8: on a sorted calibration curve (duplicate codes allowed) and an input
strictly between the minimum and the maximum code, the pair
`(lowerPoint, upperPoint)` used by `convertSensorCodeToLiters` always has
`lowerPoint.x < upperPoint.x`: the interpolation denominator is nonzero and
the result is the well-defined linear-interpolation value for that pair. -/
theorem c8_no_division_by_zero (cal : List DataPoint)
    (hs : List.Pairwise (fun a b => a.x ≤ b.x) cal) (hne : cal ≠ [])
    (c : ℚ) (hlo : (cal.head hne).x < c) (hhi : c < (cal.getLast hne).x) :
    (let pair := (findPair c cal).getD (cal.head hne, cal.getLast hne)
     pair.1.x < pair.2.x ∧
       convertSensorCodeToLiters cal c =
         pair.1.y + (c - pair.1.x) / (pair.2.x - pair.1.x) *
           (pair.2.y - pair.1.y)) := by
  cases cal with
  | nil => exact absurd rfl hne
  | cons first rest =>
    dsimp only
    rw [List.head_cons] at hlo ⊢
    rw [List.getLast_eq_getLastD] at hhi ⊢
    constructor
    · cases hfp : findPair c (first :: rest) with
      | none => simpa [hfp] using hlo.trans hhi
      | some pr =>
        obtain ⟨lo, hi⟩ := pr
        have hspec := findPair_some_spec c first rest hlo lo hi hfp
        simpa [hfp] using lt_of_lt_of_le hspec.1 hspec.2
    · rw [convert_eq_interpolateSorted hs]
      simp only [interpolateSorted]
      rw [if_neg (not_le.mpr hlo), if_neg (not_le.mpr hhi)]

/-- C8 witness: the no-division-by-zero theorem applied to a concrete sorted
curve with a duplicate code mid-range and the input sitting on it. -/
theorem c8_no_division_by_zero_witness :
    (let L : List DataPoint := [⟨0, 0, "a"⟩, ⟨5, 3, "b"⟩, ⟨5, 4, "c"⟩, ⟨10, 10, "d"⟩]
     let pair := (findPair 5 L).getD (L.head (by simp), L.getLast (by simp))
     pair.1.x < pair.2.x ∧
       convertSensorCodeToLiters L 5 =
         pair.1.y + (5 - pair.1.x) / (pair.2.x - pair.1.x) *
           (pair.2.y - pair.1.y)) :=
  c8_no_division_by_zero _ (by norm_num [List.pairwise_cons]) (by simp) 5
    (by norm_num) (by norm_num [List.getLast])

/-- C9: on a calibration curve with strictly increasing codes,
`convertSensorCodeToLiters` maps every calibration point's code to exactly
that point's volume — the piecewise-linear interpolation passes through every
calibration point. -/
theorem c9_interpolation_through_points (cal : List DataPoint)
    (hs : List.Pairwise (fun p q => p.x < q.x) cal) (p : DataPoint)
    (hp : p ∈ cal) :
    convertSensorCodeToLiters cal p.x = p.y := by
  have hs' : List.Pairwise (fun a b => a.x ≤ b.x) cal := hs.imp le_of_lt
  rw [convert_eq_interpolateSorted hs']
  cases cal with
  | nil => simp at hp
  | cons first rest =>
    simp only [interpolateSorted]
    by_cases h1 : p.x ≤ first.x
    · have hpf : p = first := by
        rcases List.mem_cons.mp hp with h | h
        · exact h
        · exact absurd ((List.pairwise_cons.mp hs).1 p h) (not_lt.mpr h1)
      rw [if_pos h1, hpf]
    · rw [if_neg h1]
      have h1' : first.x < p.x := not_le.mp h1
      by_cases h2 : (rest.getLastD first).x ≤ p.x
      · have hpl : p = rest.getLastD first := by
          by_contra hne2
          exact absurd (lt_getLastD_of_mem_of_ne first rest hs p hp hne2)
            (not_lt.mpr h2)
        rw [if_pos h2, hpl]
      · rw [if_neg h2]
        obtain ⟨lo, hi, hfp, hval⟩ := findPair_interp_mem first rest hs p hp h1'
        rw [hfp]
        simpa using hval

/-- C9 witness: the interpolation-exactness theorem applied to the middle
point of a concrete three-point strictly increasing curve. -/
theorem c9_interpolation_through_points_witness :
    convertSensorCodeToLiters
      [⟨0, 0, "a"⟩, ⟨100, 10, "b"⟩, ⟨200, 30, "c"⟩] 100 = 10 :=
  c9_interpolation_through_points
    [⟨0, 0, "a"⟩, ⟨100, 10, "b"⟩, ⟨200, 30, "c"⟩]
    (by norm_num [List.pairwise_cons]) ⟨100, 10, "b"⟩ (by simp)

/-- C4 counterexample: on the sorted two-point curve `[(5, 1), (5, 2)]` the
input `5` satisfies `code >= maximum code`, yet the result is the *first*
point's volume `1`, not the last point's volume `2` as the claim states. -/
theorem c4_equal_codes_counterexample :
    convertSensorCodeToLiters
        [⟨5, 1, "Калибровка 1"⟩, ⟨5, 2, "Калибровка 2"⟩] 5 = 1 ∧
      convertSensorCodeToLiters
        [⟨5, 1, "Калибровка 1"⟩, ⟨5, 2, "Калибровка 2"⟩] 5 ≠ 2 := by
  have h : convertSensorCodeToLiters
      [⟨5, 1, "Калибровка 1"⟩, ⟨5, 2, "Калибровка 2"⟩] 5 = 1 := by
    rw [convert_eq_interpolateSorted (by norm_num)]
    simp only [interpolateSorted]
    rw [if_pos le_rfl]
  exact ⟨h, by rw [h]; norm_num⟩

/-- C4 witness: the amended clamp theorem applied to the concrete sorted
curve `[(0, 0), (100, 10)]`, below and above the code range. -/
theorem c4_clamp_witness :
    convertSensorCodeToLiters [⟨0, 0, "a"⟩, ⟨100, 10, "b"⟩] (-7) = 0 ∧
      convertSensorCodeToLiters [⟨0, 0, "a"⟩, ⟨100, 10, "b"⟩] 150 = 10 := by
  constructor
  · exact (c4_clamp [⟨0, 0, "a"⟩, ⟨100, 10, "b"⟩] (by norm_num)
      (by simp) (-7)).1 (by norm_num)
  · exact (c4_clamp [⟨0, 0, "a"⟩, ⟨100, 10, "b"⟩] (by norm_num)
      (by simp) 150).2 (by norm_num) (by norm_num)

end Table
